import Mathlib

/-!
Verification of the `ds` driver-station protocol and connection core.

This file gives a shallow embedding, in Lean, of the parts of the
repository relevant to the stated claims:

* the inbound UDP response decoder (`src/proto/udp/inbound.rs` and its
  stub tag types in `src/proto/udp/inbound/types.rs`);
* the boolean button packer `to_u8_vec` (`src/util.rs`);
* the `Alliance` byte wrapper (`src/proto/udp/outbound/types.rs`);
* the two copies of the outbound TCP tag encoder
  (`src/proto/tcp/outbound.rs` and `src/outbound/tcp/mod.rs`);
* the exponential backoff policy (`src/ds/conn/backoff.rs`) and its use
  by the connection engine (`src/ds/conn.rs`);
* a state-transition model of the connection engine's effect on the
  shared driver-station state (`src/ds/conn.rs`, with the state
  mutators modelled from the specification, as `ds/state.rs` is not
  part of the sources).

Bytes are modelled as `Nat` (wire bytes are always `< 256` where they
matter, and hypotheses state so explicitly).  Fallible reads return
`Option`; the decoder's possible `unwrap` panic is modelled as an
explicit third outcome.  Battery voltages, computed in the source as
`f32::from(high) + f32::from(low) / 256f32`, are modelled as exact
rationals: every value of the form `high + low/256` with byte operands
is exactly representable in `f32` (16 significand bits suffice), so the
`f32` computation is exact and the rational model is faithful.
-/

namespace DsRs

/-! ### Buffer read primitives

Modelled from the spec: the `crate::ext::BufExt` helpers (`read_u8`,
`read_u16_be`) used by the inbound decoder are not among the provided
sources.  Per §4.1 of the spec, every read is strict and "the decoder
fails with `DecodeError` if any read underruns the buffer", so a read
consumes its bytes from the front of the buffer and fails exactly on
underrun.  `read_u16_be` is big-endian. -/

def read_u8 : List Nat → Option (Nat × List Nat)
  | [] => none
  | b :: rest => some (b, rest)

def read_u16_be (buf : List Nat) : Option (Nat × List Nat) :=
  match read_u8 buf with
  | none => none
  | some (hi, r1) =>
    match read_u8 r1 with
    | none => none
    | some (lo, r2) => some (hi * 256 + lo, r2)

/-! ### Inbound UDP status and trace flags (`src/proto/udp/inbound/types.rs`)

`Status` and `Trace` are `bitflags` newtypes over `u8`.  The flags
defined for `Status` are `ESTOP = 0x80`, `BROWNOUT = 0x10`,
`CODE_START = 0x08`, `ENABLED = 0x04` and the mode bits `0x01`, `0x02`;
their union is `0x9F`, so `Status::from_bits` rejects (returns `None`
for) any byte with a bit inside `0x60`.  The flags defined for `Trace`
union to `0x3F`, so `Trace::from_bits` rejects any byte with a bit
inside `0xC0`. -/

structure Status where
  bits : Nat
deriving DecidableEq, Repr

def Status.from_bits (b : Nat) : Option Status :=
  if b &&& 0x60 = 0 then some ⟨b⟩ else none

def Status.emergency_stopped (s : Status) : Bool :=
  s.bits &&& 0x80 = 0x80

structure Trace where
  bits : Nat
deriving DecidableEq, Repr

def Trace.from_bits (b : Nat) : Option Trace :=
  if b &&& 0xC0 = 0 then some ⟨b⟩ else none

/-! ### Inbound tag section (`src/proto/udp/inbound.rs`, lines 35–60)

Each recognized tag id has a stub type whose `chomp` reads a fixed
number of bytes one at a time (`gen_stub_tags!` in
`src/proto/udp/inbound/types.rs`): `JoystickOutput` 8 after id `0x01`,
`DiskInfo` 4 after `0x04`, `CPUInfo` 20 after `0x05`, `RAMInfo` 8 after
`0x06`, `PDPLog` 25 after `0x08`, `Unknown` 9 after `0x09`,
`CANMetrics` 14 after `0x0e`. -/

def chompN : Nat → List Nat → Option (List Nat)
  | 0, buf => some buf
  | n + 1, buf =>
    match read_u8 buf with
    | none => none
    | some (_, rest) => chompN n rest

def tagLen : Nat → Option Nat
  | 0x01 => some 8
  | 0x04 => some 4
  | 0x05 => some 20
  | 0x06 => some 8
  | 0x08 => some 25
  | 0x09 => some 9
  | 0x0e => some 14
  | _ => none

theorem chompN_length_le : ∀ (n : Nat) (buf r : List Nat), chompN n buf = some r → r.length ≤ buf.length := by
  intro n
  induction n with
  | zero => intro buf r h; simp [chompN] at h; simp [h]
  | succ k ih =>
    intro buf r h
    cases buf with
    | nil => simp [chompN, read_u8] at h
    | cons b rest =>
      simp [chompN, read_u8] at h
      have := ih rest r h
      simp
      omega

/-- The `while let Ok(tag_id) = buf.read_u8()` loop of
`UdpResponsePacket::decode`: returns `true` when the loop runs to the
end of the buffer, `false` when a recognized tag's `chomp` underruns
(in which case `decode` propagates the error with `?`). -/
def decodeTags : List Nat → Bool
  | [] => true
  | tag_id :: rest =>
    match tagLen tag_id with
    | some n =>
      match h : chompN n rest with
      | some r =>
        have hlt : r.length < (tag_id :: rest).length := by
          have := chompN_length_le n rest r h
          simp
          omega
        decodeTags r
      | none => false
    | none => decodeTags rest
termination_by buf => buf.length
decreasing_by
  · exact hlt
  · simp

/-- Decoded inbound packet (`UdpResponsePacket`), battery as an exact
rational (see the header comment). -/
structure UdpResponsePacket where
  seqnum : Nat
  status : Status
  trace : Trace
  battery : ℚ
  need_date : Bool
deriving DecidableEq, Repr

/-- Outcome of `UdpResponsePacket::decode`: `ok`, `err` for a returned
`Err(..)` (`DecodeError`), and `panic` for the `unwrap()` of
`Status::from_bits` / `Trace::from_bits` firing on a byte with
undefined flag bits. -/
inductive DecodeOutcome where
  | ok (p : UdpResponsePacket)
  | err
  | panic
deriving DecidableEq, Repr

/-- `UdpResponsePacket::decode` (`src/proto/udp/inbound.rs`). -/
def decode (buf : List Nat) : DecodeOutcome :=
  match read_u16_be buf with
  | none => .err
  | some (seqnum, b1) =>
    match read_u8 b1 with
    | none => .err
    | some (_comm_version, b2) =>
      match read_u8 b2 with
      | none => .err
      | some (sb, b3) =>
        match Status.from_bits sb with
        | none => .panic
        | some status =>
          match read_u8 b3 with
          | none => .err
          | some (tb, b4) =>
            match Trace.from_bits tb with
            | none => .panic
            | some trace =>
              match read_u8 b4 with
              | none => .err
              | some (high, b5) =>
                match read_u8 b5 with
                | none => .err
                | some (low, b6) =>
                  match read_u8 b6 with
                  | none => .err
                  | some (nd, b7) =>
                    if decodeTags b7 then
                      .ok { seqnum := seqnum
                            status := status
                            trace := trace
                            battery := (high : ℚ) + (low : ℚ) / 256
                            need_date := nd = 1 }
                    else .err

/-! ### Reference encoder for the round-trip claim

Modelled from the spec: no inbound-packet encoder exists in the
sources; §8 of the spec describes a reference encoder laid out as
`seqnum:u16-be | comm_version | status | trace | battery_high |
battery_low | need_date`, with `need_date` truthy encoded as the byte
`1`. -/

def refEncode (seqnum comm status trace high low : Nat) (need_date : Bool) : List Nat :=
  [seqnum / 256, seqnum % 256, comm, status, trace, high, low, if need_date then 1 else 0]

/-- A tag section consisting solely of unrecognized ids is consumed to
the end by the `while let` loop, which then reports success. -/
theorem decodeTags_all_unknown (rest : List Nat) (h : ∀ b ∈ rest, tagLen b = none) : decodeTags rest = true := by
  induction rest with
  | nil => simp [decodeTags]
  | cons b t ih =>
    have hb : tagLen b = none := h b (by simp)
    simp [decodeTags, hb]
    exact ih (fun x hx => h x (by simp [hx]))

/-- Claim C1: for every header tuple (seqnum `u16`, status byte and
trace byte over any combination of the defined flag bits, battery
bytes, `need_date` flag), encoding with the reference encoder
(`seqnum:u16-be | comm_version | status | trace | battery_high |
battery_low | need_date`) and running `UdpResponsePacket::decode`
yields `Ok` of the same tuple, with battery recovered as
`high + low/256` and `need_date` true exactly when the byte equals 1.
The battery bytes range over all values, which covers in particular
the byte encodings of `0.0` (`(0,0)`), `255 + 255/256` (`(255,255)`)
and the `f32`-rounded encodings of `6.4` and `12.37`. -/
theorem decode_refEncode_roundtrip
    (seqnum comm status trace high low : Nat) (need_date : Bool)
    (hseq : seqnum < 65536) (hcomm : comm < 256)
    (hstatus : status < 256) (hsmask : status &&& 0x60 = 0)
    (htrace : trace < 256) (htmask : trace &&& 0xC0 = 0)
    (hhigh : high < 256) (hlow : low < 256) :
    decode (refEncode seqnum comm status trace high low need_date) =
      .ok { seqnum := seqnum, status := ⟨status⟩, trace := ⟨trace⟩,
            battery := (high : ℚ) + (low : ℚ) / 256, need_date := need_date } := by
  simp [decode, refEncode, read_u16_be, read_u8, Status.from_bits, Trace.from_bits,
        hsmask, htmask, decodeTags]
  omega

/-- Witness for claim C1 at `seqnum = 0x1234`, status `0x84`
(e-stop + enabled), trace `0x21` (robot code + disabled), battery
bytes `(255, 255)`, `need_date = true`. -/
theorem decode_refEncode_roundtrip_witness :
    decode (refEncode 4660 1 132 33 255 255 true) =
      .ok { seqnum := 4660, status := ⟨132⟩, trace := ⟨33⟩,
            battery := (255 : ℚ) + (255 : ℚ) / 256, need_date := true } :=
  decode_refEncode_roundtrip 4660 1 132 33 255 255 true (by decide) (by decide)
    (by decide) (by decide) (by decide) (by decide) (by decide) (by decide)

/-- Claim C2 (counterexample): the claim asserts that an unrecognized
tag id terminates the tag loop with no later byte interpreted as a tag
and the packet still accepted.  In the code the `_ => {}` arm merely
continues the loop: after the 8-byte header, the unrecognized id
`0xFF` is consumed and the following byte `0x01` IS interpreted as a
tag id (`JoystickOutput`, 8 payload bytes), whose underrun makes
`decode` return `Err`, not `Ok`. -/
theorem decode_unknown_id_then_known_id_errors :
    decode [0, 0, 1, 0, 0, 0, 0, 0, 255, 1] = .err := by
  simp [decode, read_u16_be, read_u8, Status.from_bits, Trace.from_bits, decodeTags,
        chompN, tagLen]

/-- Claim C2 (amended): an unrecognized tag id is consumed and the tag
loop continues with the next byte as the next tag id; the packet is
still decoded to `Ok` of the header fields provided every byte of the
tag section is an unrecognized id (the loop then runs to the end of
the buffer). -/
theorem decode_header_then_unknown_ids
    (seqnum comm status trace high low : Nat) (need_date : Bool) (rest : List Nat)
    (hseq : seqnum < 65536) (hcomm : comm < 256)
    (hstatus : status < 256) (hsmask : status &&& 0x60 = 0)
    (htrace : trace < 256) (htmask : trace &&& 0xC0 = 0)
    (hhigh : high < 256) (hlow : low < 256)
    (hrest : ∀ b ∈ rest, tagLen b = none) :
    decode (refEncode seqnum comm status trace high low need_date ++ rest) =
      .ok { seqnum := seqnum, status := ⟨status⟩, trace := ⟨trace⟩,
            battery := (high : ℚ) + (low : ℚ) / 256, need_date := need_date } := by
  simp [decode, refEncode, read_u16_be, read_u8, Status.from_bits, Trace.from_bits,
        hsmask, htmask, decodeTags_all_unknown rest hrest]
  omega

/-- Witness for the amended claim C2: header followed by the two
unrecognized ids `0xFF, 0x02`. -/
theorem decode_header_then_unknown_ids_witness :
    decode (refEncode 1 1 4 2 12 128 false ++ [255, 2]) =
      .ok { seqnum := 1, status := ⟨4⟩, trace := ⟨2⟩,
            battery := (12 : ℚ) + (128 : ℚ) / 256, need_date := false } :=
  decode_header_then_unknown_ids 1 1 4 2 12 128 false [255, 2] (by decide) (by decide)
    (by decide) (by decide) (by decide) (by decide) (by decide) (by decide) (by decide)

/-- Claim C6 (counterexample): the claim asserts every buffer shorter
than the 8-byte fixed header yields a `DecodeError`.  The 4-byte buffer
`[0, 0, 0, 0x20]` reaches `Status::from_bits(0x20).unwrap()`, which
panics (bit `0x20` is not a defined `Status` flag) instead of
returning an error. -/
theorem short_buffer_panics :
    ([0, 0, 0, 32] : List Nat).length < 8 ∧ decode [0, 0, 0, 32] = .panic := by
  constructor
  · simp
  · simp [decode, read_u16_be, read_u8, Status.from_bits]

/-- Claim C6 (amended): for every buffer shorter than the 8-byte fixed
header, `UdpResponsePacket::decode` returns `Err(DecodeError)` and no
packet is produced — provided the status byte (offset 3) and trace
byte (offset 4), when present, carry only defined flag bits (otherwise
the `from_bits(..).unwrap()` panics first). -/
theorem decode_short_buffer_errors (buf : List Nat)
    (hlen : buf.length < 8)
    (hs : buf.getD 3 0 &&& 0x60 = 0)
    (ht : buf.getD 4 0 &&& 0xC0 = 0) :
    decode buf = .err := by
  rcases buf with _ | ⟨b0, _ | ⟨b1, _ | ⟨b2, _ | ⟨b3, _ | ⟨b4, _ | ⟨b5, _ | ⟨b6, rest⟩⟩⟩⟩⟩⟩⟩
  · simp [decode, read_u16_be, read_u8]
  · simp [decode, read_u16_be, read_u8]
  · simp [decode, read_u16_be, read_u8]
  · simp [decode, read_u16_be, read_u8]
  · simp [List.getD] at hs
    simp [decode, read_u16_be, read_u8, Status.from_bits, hs]
  · simp [List.getD] at hs ht
    simp [decode, read_u16_be, read_u8, Status.from_bits, Trace.from_bits, hs, ht]
  · simp [List.getD] at hs ht
    simp [decode, read_u16_be, read_u8, Status.from_bits, Trace.from_bits, hs, ht]
  · cases rest with
    | nil =>
      simp [List.getD] at hs ht
      simp [decode, read_u16_be, read_u8, Status.from_bits, Trace.from_bits, hs, ht]
    | cons b7 rest' => simp at hlen; omega

/-- Witness for the amended claim C6: the 3-byte buffer `[0, 0, 1]`. -/
theorem decode_short_buffer_errors_witness :
    decode [0, 0, 1] = .err :=
  decode_short_buffer_errors [0, 0, 1] (by decide) (by decide) (by decide)

/-- Claim C9 (counterexample): the claim asserts `decode` never panics,
in particular for status bytes with bits `0x20`/`0x40` set.  On a
complete 8-byte header whose status byte is `0x20`,
`Status::from_bits(0x20)` is `None` and the `unwrap()` panics. -/
theorem undefined_status_bit_panics :
    decode [0, 0, 1, 32, 0, 0, 0, 0] = .panic := by
  simp [decode, read_u16_be, read_u8, Status.from_bits]

/-- Claim C9 (amended): `UdpResponsePacket::decode` is total and
panic-free — returning either `Ok` or a decode error — for every input
buffer whose status byte (offset 3) has no bit inside `0x60` and whose
trace byte (offset 4) has no bit inside `0xC0`; buffers whose status
or trace byte has an undefined flag bit make the `unwrap()` of
`from_bits` panic instead. -/
theorem decode_no_panic_on_defined_flag_bytes (buf : List Nat)
    (hs : buf.getD 3 0 &&& 0x60 = 0)
    (ht : buf.getD 4 0 &&& 0xC0 = 0) :
    decode buf ≠ .panic := by
  rcases buf with _ | ⟨b0, _ | ⟨b1, _ | ⟨b2, _ | ⟨b3, _ | ⟨b4, rest⟩⟩⟩⟩⟩
  · simp [decode, read_u16_be, read_u8]
  · simp [decode, read_u16_be, read_u8]
  · simp [decode, read_u16_be, read_u8]
  · simp [decode, read_u16_be, read_u8]
  · simp [List.getD] at hs
    simp [decode, read_u16_be, read_u8, Status.from_bits, hs]
  · simp [List.getD] at hs ht
    rcases rest with _ | ⟨b5, _ | ⟨b6, _ | ⟨b7, rest'⟩⟩⟩
    · simp [decode, read_u16_be, read_u8, Status.from_bits, Trace.from_bits, hs, ht]
    · simp [decode, read_u16_be, read_u8, Status.from_bits, Trace.from_bits, hs, ht]
    · simp [decode, read_u16_be, read_u8, Status.from_bits, Trace.from_bits, hs, ht]
    · simp [decode, read_u16_be, read_u8, Status.from_bits, Trace.from_bits, hs, ht]
      split <;> simp

/-- Witness for the amended claim C9: a complete packet buffer with
status `0x84` and trace `0x21` does not panic. -/
theorem decode_no_panic_on_defined_flag_bytes_witness :
    decode [0, 5, 1, 132, 33, 12, 128, 1] ≠ .panic :=
  decode_no_panic_on_defined_flag_bytes [0, 5, 1, 132, 33, 12, 128, 1]
    (by decide) (by decide)

/-! ### Boolean button packing (`src/util.rs`, `to_u8_vec`)

The source iterates over the input in chunks of eight booleans,
building one byte per chunk with `byte |= 1 << bit_pos` (LSB-first,
breaking at the end of the slice), pushes the bytes in chunk order and
finally reverses the byte vector. -/

/-- The inner loop of `to_u8_vec`: one byte from up to eight booleans,
LSB-first. -/
def packByte : List Bool → Nat
  | [] => 0
  | b :: rest => (if b then 1 else 0) + 2 * packByte rest

/-- The outer loop of `to_u8_vec`: one byte per chunk of eight, in
input order (before the final reversal). -/
def packChunks : List Bool → List Nat
  | [] => []
  | b :: t => packByte ((b :: t).take 8) :: packChunks ((b :: t).drop 8)
termination_by v => v.length
decreasing_by
  simp
  omega

/-- `to_u8_vec` (`src/util.rs`): chunk bytes, then `result.reverse()`. -/
def to_u8_vec (v : List Bool) : List Nat := (packChunks v).reverse

/-- The `k` low bits of a byte, LSB first (spec side of the claim: an
"LSB-first unpack"). -/
def bitsLE : Nat → Nat → List Bool
  | 0, _ => []
  | k + 1, n => (n % 2 == 1) :: bitsLE k (n / 2)

/-- LSB-first unpack of a byte sequence: eight booleans per byte, bit 0
first (spec side of the claim). -/
def lsbUnpack (bs : List Nat) : List Bool := (bs.map (bitsLE 8)).flatten

theorem lsbUnpack_nil : lsbUnpack [] = [] := by simp [lsbUnpack]

theorem lsbUnpack_cons (a : Nat) (l : List Nat) :
    lsbUnpack (a :: l) = bitsLE 8 a ++ lsbUnpack l := by
  simp [lsbUnpack]

theorem bitsLE_zero (k : Nat) : bitsLE k 0 = List.replicate k false := by
  induction k with
  | zero => simp [bitsLE]
  | succ n ih => simp [bitsLE, ih, List.replicate]

/-- Unpacking a packed byte recovers the chunk, padded with `false`. -/
theorem bitsLE_packByte (c : List Bool) (k : Nat) (h : c.length ≤ k) :
    bitsLE k (packByte c) = c ++ List.replicate (k - c.length) false := by
  induction c generalizing k with
  | nil => simp [packByte, bitsLE_zero]
  | cons b t ih =>
    cases k with
    | zero => simp at h
    | succ k' =>
      simp only [packByte, bitsLE]
      have h1 : ((if b then 1 else 0) + 2 * packByte t) % 2 = if b then 1 else 0 := by
        cases b <;> simp <;> omega
      have h2 : ((if b then 1 else 0) + 2 * packByte t) / 2 = packByte t := by
        cases b <;> simp <;> omega
      have h3 : (((if b then 1 else 0 : Nat)) == 1) = b := by cases b <;> rfl
      rw [h1, h2, h3, ih k' (by simpa using h)]
      simp only [List.cons_append, List.length_cons]
      rw [show k' + 1 - (t.length + 1) = k' - t.length from by omega]

/-- Unpacking the chunk bytes (in pre-reversal order) recovers the
input, padded with `false` to the next multiple of eight. -/
theorem lsbUnpack_packChunks (v : List Bool) :
    lsbUnpack (packChunks v) = v ++ List.replicate (8 * ((v.length + 7) / 8) - v.length) false := by
  induction v using packChunks.induct with
  | case1 => simp [packChunks, lsbUnpack]
  | case2 b t ih =>
    by_cases hlen : (b :: t).length ≤ 8
    · have hdrop : (b :: t).drop 8 = [] := List.drop_eq_nil_of_le (by omega)
      have htake : (b :: t).take 8 = b :: t := List.take_of_length_le (by omega)
      have hnil : packChunks [] = [] := by rw [packChunks]
      rw [packChunks, htake, hdrop, lsbUnpack_cons, hnil, lsbUnpack_nil,
          bitsLE_packByte (b :: t) 8 (by simpa using hlen), List.append_nil]
      simp only [List.length_cons] at hlen ⊢
      rw [show 8 - (t.length + 1) = 8 * ((t.length + 1 + 7) / 8) - (t.length + 1) from by omega]
    · push_neg at hlen
      have htl : ((b :: t).take 8).length = 8 := by
        simp only [List.length_take, List.length_cons] at hlen ⊢
        omega
      rw [packChunks, lsbUnpack_cons, bitsLE_packByte _ 8 (le_of_eq htl), htl, ih]
      simp only [Nat.sub_self, List.replicate_zero, List.append_nil]
      rw [← List.append_assoc, List.take_append_drop]
      congr 2
      have hd : (List.drop 8 (b :: t)).length = (b :: t).length - 8 := by simp
      rw [hd]
      omega

theorem packChunks_length (v : List Bool) : (packChunks v).length = (v.length + 7) / 8 := by
  induction v using packChunks.induct with
  | case1 => rw [packChunks]; simp
  | case2 b t ih =>
    rw [packChunks]
    simp only [List.length_cons]
    rw [ih]
    have hd : ((b :: t).drop 8).length = t.length + 1 - 8 := by simp
    rw [hd]
    omega

/-- Claim C5: for every boolean vector of length 0 to 255, `to_u8_vec`
packs the booleans LSB-first within each byte into `⌈n/8⌉` bytes and
reverses the byte order: the output has length `⌈n/8⌉`, undoing the
byte-reversal and unpacking LSB-first recovers the input (packing is
the inverse of that unpack), and the first group of eight booleans
occupies the last output byte. -/
theorem to_u8_vec_claim (v : List Bool) (hlen : v.length ≤ 255) :
    (to_u8_vec v).length = (v.length + 7) / 8 ∧
    (lsbUnpack ((to_u8_vec v).reverse)).take v.length = v ∧
    (v ≠ [] → (to_u8_vec v).getLast? = some (packByte (v.take 8))) := by
  refine ⟨?_, ?_, ?_⟩
  · simp [to_u8_vec, packChunks_length]
  · rw [to_u8_vec, List.reverse_reverse, lsbUnpack_packChunks, List.take_left]
  · intro hne
    rw [to_u8_vec, List.getLast?_reverse]
    cases v with
    | nil => exact absurd rfl hne
    | cons b t => rw [packChunks]; rfl

/-- Witness for claim C5 at the nine-button vector of the source's own
`verify_joysticks_format` test input. -/
theorem to_u8_vec_claim_witness :
    ([true, false, true, false, false, false, false, false, true] : List Bool).length ≤ 255 ∧
    ((to_u8_vec [true, false, true, false, false, false, false, false, true]).length =
        (([true, false, true, false, false, false, false, false, true] : List Bool).length + 7) / 8 ∧
      (lsbUnpack ((to_u8_vec [true, false, true, false, false, false, false, false, true]).reverse)).take
          ([true, false, true, false, false, false, false, false, true] : List Bool).length =
        [true, false, true, false, false, false, false, false, true] ∧
      (([true, false, true, false, false, false, false, false, true] : List Bool) ≠ [] →
        (to_u8_vec [true, false, true, false, false, false, false, false, true]).getLast? =
          some (packByte (([true, false, true, false, false, false, false, false, true] : List Bool).take 8)))) :=
  ⟨by decide, to_u8_vec_claim [true, false, true, false, false, false, false, false, true] (by decide)⟩

/-! ### Alliance byte (`src/proto/udp/outbound/types.rs`)

`Alliance` wraps the single wire byte.  The constructors assert
`position <= 3 && position != 0` (a panic otherwise), modelled as
`Option` with `none` for the assertion failure. -/

structure Alliance where
  val : Nat
deriving DecidableEq, Repr

def Alliance.new_red (position : Nat) : Option Alliance :=
  if position ≤ 3 ∧ position ≠ 0 then some ⟨position - 1⟩ else none

def Alliance.new_blue (position : Nat) : Option Alliance :=
  if position ≤ 3 ∧ position ≠ 0 then some ⟨position + 2⟩ else none

def Alliance.is_red (a : Alliance) : Bool := a.val < 3

def Alliance.is_blue (a : Alliance) : Bool := !a.is_red

def Alliance.position (a : Alliance) : Nat := a.val % 3 + 1

/-- Claim C8: `new_red p` has wire byte `p - 1` and `new_blue p` has
wire byte `p + 2` for positions `1 ≤ p ≤ 3`; for every wire byte
`0..=5`, `is_red` is `byte < 3`, `is_blue` its negation, and
`position` is `byte % 3 + 1`; in particular `new_red 1` has byte
`0x00`, is red, position 1, and `new_blue 3` has byte `0x05`, is blue,
position 3. -/
theorem alliance_claim :
    (∀ p : Nat, 1 ≤ p → p ≤ 3 →
      Alliance.new_red p = some ⟨p - 1⟩ ∧ Alliance.new_blue p = some ⟨p + 2⟩) ∧
    (∀ b : Nat, b ≤ 5 →
      Alliance.is_red ⟨b⟩ = decide (b < 3) ∧
      Alliance.is_blue ⟨b⟩ = !Alliance.is_red ⟨b⟩ ∧
      Alliance.position ⟨b⟩ = b % 3 + 1) ∧
    (Alliance.new_red 1 = some ⟨0⟩ ∧ Alliance.is_red ⟨0⟩ = true ∧ Alliance.position ⟨0⟩ = 1) ∧
    (Alliance.new_blue 3 = some ⟨5⟩ ∧ Alliance.is_blue ⟨5⟩ = true ∧ Alliance.position ⟨5⟩ = 3) := by
  refine ⟨?_, ?_, ?_, ?_⟩
  · intro p h1 h2
    interval_cases p <;> exact ⟨rfl, rfl⟩
  · intro b hb
    interval_cases b <;> exact ⟨rfl, rfl, rfl⟩
  · exact ⟨rfl, rfl, rfl⟩
  · exact ⟨rfl, rfl, rfl⟩

/-- Witness for claim C8 at position 2. -/
theorem alliance_claim_witness :
    Alliance.new_red 2 = some ⟨1⟩ ∧ Alliance.new_blue 2 = some ⟨4⟩ :=
  alliance_claim.1 2 (by decide) (by decide)

/-! ### The two copies of the outbound TCP tag encoder

`src/proto/tcp/outbound.rs` and `src/outbound/tcp/mod.rs` define the
same `TcpTag` enum, ids (`MatchInfo = 0x07`, `GameData = 0x0e`) and
`data()` payloads (`competition_len:u8 | competition | match_type` and
the raw game message, both truncating the competition length with
`as u8`).  Their `construct` defaults differ:

* the `proto` copy asserts `1 + data.len() <= u16::MAX` (panic —
  modelled as `none` — otherwise) and writes that exact value
  big-endian;
* the `outbound` copy builds `id :: data` and writes
  `buf.len() as u16` big-endian with no check, silently truncating
  the length modulo 2^16.

Strings are modelled as their UTF-8 byte lists. -/

inductive MatchType where
  | noMatch | practice | qualifications | eliminations
deriving DecidableEq, Repr

def MatchType.toByte : MatchType → Nat
  | .noMatch => 0
  | .practice => 1
  | .qualifications => 2
  | .eliminations => 3

inductive TcpTag where
  | matchInfo (competition : List Nat) (match_type : MatchType)
  | gameData (gsm : List Nat)
deriving DecidableEq, Repr

def TcpTag.id : TcpTag → Nat
  | .matchInfo _ _ => 0x07
  | .gameData _ => 0x0e

def TcpTag.data : TcpTag → List Nat
  | .matchInfo competition match_type => (competition.length % 256) :: (competition ++ [match_type.toByte])
  | .gameData gsm => gsm

/-- `OutgoingTcpTag::construct` of `src/proto/tcp/outbound.rs`. -/
def construct_proto (t : TcpTag) : Option (List Nat) :=
  let data := t.data
  let payload_len := 1 + data.length
  if payload_len ≤ 65535 then
    some (payload_len / 256 :: payload_len % 256 :: t.id :: data)
  else none

/-- `OutgoingTcpTag::construct` of `src/outbound/tcp/mod.rs`. -/
def construct_outbound (t : TcpTag) : List Nat :=
  let buf := t.id :: t.data
  let len16 := buf.length % 65536
  len16 / 256 :: len16 % 256 :: buf

/-- Claim C7 (counterexample): the claim asserts the two `construct`
copies are behaviorally identical for every tag.  On a `GameData` tag
with a 65535-byte message, the `proto` copy panics in its
`assert!(payload_len <= u16::MAX as usize)` (payload 65536), while the
`outbound` copy silently truncates the `u16` length to 0 and produces
a frame. -/
theorem construct_copies_diverge :
    construct_proto (.gameData (List.replicate 65535 65)) = none ∧
    construct_outbound (.gameData (List.replicate 65535 65)) =
      0 :: 0 :: 0x0e :: List.replicate 65535 65 := by
  constructor
  · rw [construct_proto]
    rw [show TcpTag.data (.gameData (List.replicate 65535 65)) = List.replicate 65535 65 from rfl]
    rw [List.length_replicate]
    norm_num
  · rw [construct_outbound]
    rw [show TcpTag.data (.gameData (List.replicate 65535 65)) = List.replicate 65535 65 from rfl]
    rw [show TcpTag.id (.gameData (List.replicate 65535 65)) = 0x0e from rfl]
    rw [List.length_cons, List.length_replicate]

/-- Claim C7 (amended): for every `MatchInfo` or `GameData` tag whose
`data()` payload is at most 65534 bytes (so that `1 + |data|` fits a
`u16`), the two `construct` copies produce the same byte sequence
`length:u16-be | id | data`; they diverge only beyond that bound. -/
theorem construct_copies_agree (t : TcpTag) (h : t.data.length ≤ 65534) :
    construct_proto t = some (construct_outbound t) := by
  simp only [construct_proto, construct_outbound]
  have h1 : 1 + t.data.length ≤ 65535 := by omega
  have h2 : (t.id :: t.data).length % 65536 = 1 + t.data.length := by
    simp [Nat.mod_eq_of_lt]
    omega
  rw [if_pos h1, h2]

/-- Witness for the amended claim C7 on a three-byte `GameData` tag. -/
theorem construct_copies_agree_witness :
    construct_proto (.gameData [1, 2, 3]) = some (construct_outbound (.gameData [1, 2, 3])) :=
  construct_copies_agree (.gameData [1, 2, 3]) (by decide)

/-! ### Exponential backoff (`src/ds/conn/backoff.rs`)

Durations are modelled in whole milliseconds: every `Duration` this
code constructs is a whole number of milliseconds
(`Duration::from_millis(..)` and `Duration::new(5, 0)`), and `min` and
`==` on such durations agree with `min` and `=` on the millisecond
counts.  The `u64` power `20u64.pow(self.attempt)` is modelled with
its release-mode wrapping semantics, `20 ^ attempt % 2 ^ 64`.
`run`'s result is `(state after, slept, result)`: `slept` is the
pending timeout the call sleeps before polling the operation, and the
operation's outcome is passed in as an `Except` value (the future's
result). -/

structure ExponentialBackoff where
  attempt : Nat
  max_timeout : Nat
  use_max : Bool
  timeout : Option Nat
deriving DecidableEq, Repr

def ExponentialBackoff.new (max_timeout : Nat) : ExponentialBackoff :=
  { attempt := 0, max_timeout := max_timeout, use_max := false, timeout := none }

def ExponentialBackoff.reset (b : ExponentialBackoff) : ExponentialBackoff :=
  { b with use_max := false, attempt := 0, timeout := none }

def ExponentialBackoff.calculate_wait (b : ExponentialBackoff) : ExponentialBackoff :=
  if b.use_max then b
  else
    let backoff_millis := 20 ^ b.attempt % 2 ^ 64
    let delay := min backoff_millis b.max_timeout
    { b with use_max := decide (delay = b.max_timeout), timeout := some delay }

def ExponentialBackoff.run {O E : Type} (b : ExponentialBackoff) (r : Except E O) :
    ExponentialBackoff × Option Nat × Except (E × Bool) O :=
  let slept := b.timeout
  match r with
  | .ok v => (b.reset, slept, .ok v)
  | .error e =>
    let disconnected := b.attempt == 0
    let b1 := b.calculate_wait
    (( { b1 with attempt := b1.attempt + 1 } : ExponentialBackoff), slept, .error (e, disconnected))

/-- Claim C4: each `run` call first sleeps any pending timeout; on
success it resets `attempt`, `use_max` and the pending timeout and
returns the value; on failure it stores
`min(20^attempt ms, max_timeout)` (with `attempt` at entry) as the
pending timeout and sets `use_max` when that min equals `max_timeout`
(so that later failures skip the recomputation and keep the previous
— ceiling — timeout), increments `attempt`, and returns the error
paired with `first_failure = (attempt at entry == 0)`.  The
no-overflow hypothesis `20 ^ attempt < 2^64` keeps the claim's exact
power arithmetic meaningful; claim C10 shows the engine only ever
evaluates the power within it. -/
theorem backoff_run_claim {O E : Type} (b : ExponentialBackoff) (r : Except E O)
    (hpow : 20 ^ b.attempt < 2 ^ 64) :
    (b.run r).2.1 = b.timeout ∧
    (∀ v, r = .ok v → b.run r = (b.reset, b.timeout, .ok v)) ∧
    (∀ e, r = .error e →
      (b.run r).2.2 = .error (e, b.attempt == 0) ∧
      (b.run r).1.attempt = b.attempt + 1 ∧
      (b.use_max = false →
        (b.run r).1.timeout = some (min (20 ^ b.attempt) b.max_timeout) ∧
        (b.run r).1.use_max = decide (min (20 ^ b.attempt) b.max_timeout = b.max_timeout)) ∧
      (b.use_max = true →
        (b.run r).1.timeout = b.timeout ∧ (b.run r).1.use_max = true)) := by
  refine ⟨?_, ?_, ?_⟩
  · cases r <;> rfl
  · intro v hv
    subst hv
    rfl
  · intro e he
    subst he
    refine ⟨rfl, ?_, ?_, ?_⟩
    · by_cases hm : b.use_max <;>
        simp [ExponentialBackoff.run, ExponentialBackoff.calculate_wait, hm]
    · intro hm
      have hmod : 20 ^ b.attempt % 18446744073709551616 = 20 ^ b.attempt :=
        Nat.mod_eq_of_lt (by simpa using hpow)
      simp [ExponentialBackoff.run, ExponentialBackoff.calculate_wait, hm, hmod]
    · intro hm
      simp [ExponentialBackoff.run, ExponentialBackoff.calculate_wait, hm]

/-- Witness for claim C4: a first failure on a fresh backoff with the
engine's 5 s ceiling is reported with `first_failure = true`. -/
theorem backoff_run_claim_witness :
    20 ^ (ExponentialBackoff.new 5000).attempt < 2 ^ 64 ∧
    ((ExponentialBackoff.new 5000).run (Except.error (0 : Nat)) :
        ExponentialBackoff × Option Nat × Except (Nat × Bool) Nat).2.2 =
      .error (0, true) :=
  ⟨by simp [ExponentialBackoff.new],
    ((backoff_run_claim (ExponentialBackoff.new 5000) (Except.error (0 : Nat))
      (by simp [ExponentialBackoff.new])).2.2 0 rfl).1⟩

/-! ### The engine's backoff configuration (`src/ds/conn.rs`, line 60)

The UDP send task constructs `ExponentialBackoff::new(Duration::new(5, 0))`
— a 5000 ms ceiling — and, while the send keeps failing with no
intervening success, feeds it one failure per attempt.  `failState k`
is the backoff state after `k` consecutive failures. -/

def engineBackoff : ExponentialBackoff := ExponentialBackoff.new 5000

def failState : Nat → ExponentialBackoff
  | 0 => engineBackoff
  | k + 1 => (((failState k).run (Except.error 0 : Except Nat Nat)).1 : ExponentialBackoff)

/-- Full characterization of the backoff state after `k` consecutive
failures of the engine's send path. -/
theorem failState_spec (k : Nat) :
    failState k =
      if k = 0 then { attempt := 0, max_timeout := 5000, use_max := false, timeout := none }
      else if k = 1 then { attempt := 1, max_timeout := 5000, use_max := false, timeout := some 1 }
      else if k = 2 then { attempt := 2, max_timeout := 5000, use_max := false, timeout := some 20 }
      else if k = 3 then { attempt := 3, max_timeout := 5000, use_max := false, timeout := some 400 }
      else { attempt := k, max_timeout := 5000, use_max := true, timeout := some 5000 } := by
  induction k with
  | zero => rfl
  | succ n ih =>
    rw [failState, ih]
    rcases n with _ | _ | _ | _ | m
    · rfl
    · rfl
    · rfl
    · rfl
    · rw [if_neg (show ¬(m + 1 + 1 + 1 + 1 = 0) by omega),
          if_neg (show ¬(m + 1 + 1 + 1 + 1 = 1) by omega),
          if_neg (show ¬(m + 1 + 1 + 1 + 1 = 2) by omega),
          if_neg (show ¬(m + 1 + 1 + 1 + 1 = 3) by omega),
          if_neg (show ¬(m + 1 + 1 + 1 + 1 + 1 = 0) by omega),
          if_neg (show ¬(m + 1 + 1 + 1 + 1 + 1 = 1) by omega),
          if_neg (show ¬(m + 1 + 1 + 1 + 1 + 1 = 2) by omega),
          if_neg (show ¬(m + 1 + 1 + 1 + 1 + 1 = 3) by omega)]
      simp [ExponentialBackoff.run, ExponentialBackoff.calculate_wait]

/-- Claim C10: with the engine's 5 s ceiling, the pending delays stored
by consecutive failures are exactly 1 ms, 20 ms, 400 ms and then 5 s
for every later failure; the attempt counter equals the number of
failures; and `20^attempt` is only evaluated (i.e. `use_max` is still
false) while `attempt ≤ 3`, where the `u64` power does not overflow. -/
theorem engine_backoff_delays (k : Nat) :
    ((failState (k + 1)).timeout =
      some (if k = 0 then 1 else if k = 1 then 20 else if k = 2 then 400 else 5000)) ∧
    (failState k).attempt = k ∧
    ((failState k).use_max = false → (failState k).attempt ≤ 3 ∧ 20 ^ (failState k).attempt < 2 ^ 64) := by
  refine ⟨?_, ?_, ?_⟩
  · rw [failState_spec (k + 1)]
    rcases k with _ | _ | _ | _ | m
    · norm_num
    · norm_num
    · norm_num
    · norm_num
    · split_ifs <;> first | assumption | omega | simp
  · rw [failState_spec k]
    rcases k with _ | _ | _ | _ | m
    · norm_num
    · norm_num
    · norm_num
    · norm_num
    · split_ifs <;> first | assumption | omega | simp
  · rw [failState_spec k]
    rcases k with _ | _ | _ | _ | m
    · norm_num
    · norm_num
    · norm_num
    · norm_num
    · split_ifs <;> first | assumption | omega | simp

/-- Witness for claim C10: the fourth failure stores the 5 s ceiling,
and after two failures the power is still being evaluated within
bounds. -/
theorem engine_backoff_delays_witness :
    (failState 4).timeout = some 5000 ∧ (failState 2).use_max = false ∧
    (failState 2).attempt ≤ 3 :=
  ⟨(engine_backoff_delays 3).1, by rw [failState_spec 2]; norm_num,
    ((engine_backoff_delays 2).2.2 (by rw [failState_spec 2]; norm_num)).1⟩

/-! ### The connection engine's effect on shared state (`src/ds/conn.rs`)

`ds/state.rs` (the shared `DsState` with its send/recv sub-states) is
not among the provided sources, so the state and its mutators are
modelled from the spec (§3 "Send state", §4.2): `Control` carries the
e-stop, FMS, enabled and mode fields of the control byte; `disable`
clears only the enabled bit; `estop` sets the e-stop bit; the
`control()` builder drains the per-tick tag queue and clears the
pending request; `reset`-style operations zero the sequence number and
clear enable.  The engine queues only `DateTime` tags
(`src/ds/conn.rs`, lines 128–139), so the queue is modelled as a list
of those.

`step` is the per-event state transition of the engine tasks of
`src/ds/conn.rs`:

* `tick b`: one 20 ms send tick — build the control packet (drain
  tags, clear request), and increment the sequence number; `b` is
  whether the send failed with `ConnectionRefused` on a first failure,
  in which case the recv state is reset (lines 62–80);
* `sendNewTarget` / `sendNewModeSim`: the send task's handling of
  `NewTarget` / `NewMode(Simulation)` — `reset_seqnum`, `disable`,
  recv reset (the socket rebind and backoff reset carry no shared
  state) (lines 81–108);
* `recvPacket p dt`: a decoded inbound packet — queue a `DateTime`
  tag if `need_date`, spawn the TCP supervisor if absent, set e-stop
  iff the status byte signals e-stop and send-state is not yet
  e-stopped, store trace and battery (lines 121–162);
* `recvTimeout`: the 2 s receive timeout (lines 166–172);
* `recvSignalNewTarget` / `recvSignalNewMode m`: the recv task's
  signal handling — tear down the TCP supervisor, update the cached
  `DsMode` (lines 176–199);
* `simProbe`: the simulator detector, which only posts signals and
  touches no shared state (lines 252–275). -/

inductive RobotMode where
  | teleop | testing | autonomous
deriving DecidableEq, Repr

inductive DsMode where
  | normal | simulation
deriving DecidableEq, Repr

structure Control where
  estop : Bool
  fms_connected : Bool
  enabled : Bool
  mode : RobotMode
deriving DecidableEq, Repr

structure RequestFlags where
  reboot_roborio : Bool
  restart_code : Bool
deriving DecidableEq, Repr

structure DateTimeTag where
  micros : Nat
  second : Nat
  minute : Nat
  hour : Nat
  day : Nat
  month : Nat
  year : Nat
deriving DecidableEq, Repr

structure SendState where
  alliance : Alliance
  control : Control
  request : Option RequestFlags
  ds_mode : DsMode
  seqnum : Nat
  pending_tags : List DateTimeTag
deriving DecidableEq, Repr

def SendState.enable (s : SendState) : SendState :=
  { s with control := { s.control with enabled := true } }

def SendState.disable (s : SendState) : SendState :=
  { s with control := { s.control with enabled := false } }

def SendState.estop (s : SendState) : SendState :=
  { s with control := { s.control with estop := true } }

def SendState.estopped (s : SendState) : Bool := s.control.estop

def SendState.reset_seqnum (s : SendState) : SendState := { s with seqnum := 0 }

def SendState.increment_seqnum (s : SendState) : SendState :=
  { s with seqnum := (s.seqnum + 1) % 65536 }

def SendState.queue_udp (s : SendState) (t : DateTimeTag) : SendState :=
  { s with pending_tags := s.pending_tags ++ [t] }

def SendState.set_ds_mode (s : SendState) (m : DsMode) : SendState :=
  { s with ds_mode := m }

/-- The state effect of the §4.2 `control()` builder: the per-tick tag
queue is drained and the pending request flags are cleared. -/
def SendState.control_take (s : SendState) : SendState :=
  { s with pending_tags := [], request := none }

structure RecvState where
  trace : Trace
  battery : ℚ
deriving DecidableEq, Repr

def RecvState.reset (_ : RecvState) : RecvState := { trace := ⟨0⟩, battery := 0 }

def RecvState.set_trace (r : RecvState) (t : Trace) : RecvState := { r with trace := t }

def RecvState.set_battery_voltage (r : RecvState) (v : ℚ) : RecvState := { r with battery := v }

structure EngineState where
  send : SendState
  recv : RecvState
  connected : Bool
  tcp_connected : Bool
deriving DecidableEq, Repr

inductive EngineEvent where
  | tick (send_refused_first : Bool)
  | sendNewTarget
  | sendNewModeSim
  | recvPacket (p : UdpResponsePacket) (dt : DateTimeTag)
  | recvTimeout
  | recvSignalNewTarget
  | recvSignalNewMode (m : DsMode)
  | simProbe (received : Bool)
deriving DecidableEq

def step (st : EngineState) (ev : EngineEvent) : EngineState :=
  match ev with
  | .tick refused_first =>
    { st with
      send := st.send.control_take.increment_seqnum
      recv := if refused_first then st.recv.reset else st.recv }
  | .sendNewTarget =>
    { st with send := st.send.reset_seqnum.disable, recv := st.recv.reset }
  | .sendNewModeSim =>
    { st with send := st.send.reset_seqnum.disable, recv := st.recv.reset }
  | .recvPacket p dt =>
    let send1 := if p.need_date then st.send.queue_udp dt else st.send
    let send2 :=
      if p.status.emergency_stopped && !send1.estopped then send1.estop else send1
    { send := send2
      recv := (st.recv.set_trace p.trace).set_battery_voltage p.battery
      connected := true
      tcp_connected := true }
  | .recvTimeout =>
    if st.connected then { st with recv := st.recv.reset, connected := false } else st
  | .recvSignalNewTarget => { st with tcp_connected := false }
  | .recvSignalNewMode m =>
    if m ≠ st.send.ds_mode then
      { st with send := st.send.set_ds_mode m, tcp_connected := false }
    else st
  | .simProbe _ => st

/-- The only engine event that can set e-stop: a decoded inbound
packet whose status byte signals e-stop. -/
def eventSetsEstop : EngineEvent → Bool
  | .recvPacket p _ => p.status.emergency_stopped
  | _ => false

/-- Claim C3: in every state of the engine, once the send-state e-stop
bit is set, no engine step (send tick, send-task or recv-task signal
handling including the `NewTarget` / `NewMode` resets, receive
timeout, packet receipt, simulator probe) clears it; and a step only
ever sets e-stop when the event is a decoded inbound packet whose
status byte signals e-stop (there is no re-arm transition). -/
theorem estop_sticky (st : EngineState) (ev : EngineEvent) :
    (st.send.estopped = true → (step st ev).send.estopped = true) ∧
    ((step st ev).send.estopped = true → st.send.estopped = true ∨ eventSetsEstop ev = true) := by
  cases ev with
  | tick refused_first =>
    simp [step, eventSetsEstop, SendState.estopped, SendState.control_take,
      SendState.increment_seqnum]
  | sendNewTarget =>
    simp [step, eventSetsEstop, SendState.estopped, SendState.reset_seqnum, SendState.disable]
  | sendNewModeSim =>
    simp [step, eventSetsEstop, SendState.estopped, SendState.reset_seqnum, SendState.disable]
  | recvPacket p dt =>
    by_cases hnd : p.need_date <;> by_cases hes : p.status.emergency_stopped <;>
      simp [step, eventSetsEstop, SendState.estopped, SendState.queue_udp, SendState.estop,
        hnd, hes] <;>
      split_ifs <;> simp_all
  | recvTimeout =>
    by_cases hc : st.connected <;> simp [step, eventSetsEstop, SendState.estopped, hc]
  | recvSignalNewTarget =>
    simp [step, eventSetsEstop, SendState.estopped]
  | recvSignalNewMode m =>
    by_cases hm : m = st.send.ds_mode <;>
      simp [step, eventSetsEstop, SendState.estopped, SendState.set_ds_mode, hm]
  | simProbe received =>
    simp [step, eventSetsEstop, SendState.estopped]

/-- Witness for claim C3: an e-stopped state stays e-stopped across a
send tick. -/
theorem estop_sticky_witness :
    (step ⟨⟨⟨0⟩, ⟨true, false, false, .teleop⟩, none, .normal, 0, []⟩, ⟨⟨0⟩, 0⟩, false, false⟩
        (.tick false)).send.estopped = true :=
  (estop_sticky ⟨⟨⟨0⟩, ⟨true, false, false, .teleop⟩, none, .normal, 0, []⟩, ⟨⟨0⟩, 0⟩, false, false⟩
      (.tick false)).1 rfl

end DsRs
